import Mathlib

/-!
Shallow embedding of the notifyai scheduling and delivery-reliability core:
the retry policy engine and channel retry predicates (`src/core/retry.ts`),
the sliding-window rate limiter (`src/core/limiter.ts`), the job queue's
priority/delay derivation (`src/queue/queue.ts`), the AI scorer's parsing
and fallback path (`src/core/scorer.ts`), and the worker's job processing
(`src/queue/worker.ts`).

Modelling conventions:
* JavaScript strings are lists of characters (`JStr`); `toLowerCase` is a
  character map and `includes` is a contiguous-sublist test.
* JavaScript numbers that carry scores are rationals (`ℚ`); `NaN` is
  modelled as `Option.none` where the code can produce it.
* Effectful calls that can reject are functions into `Except`; an
  asynchronous operation retried by the engine is a function from the
  attempt number (1-based) to that attempt's outcome.
* Wall-clock quantities (`totalTimeMs`, backoff sleeps, measured delivery
  time) are timing effects: the control flow around them is embedded
  exactly, the elapsed durations are abstract parameters or omitted.
-/

/-- JavaScript strings, modelled as lists of characters. -/
abbrev JStr := List Char

/-- `s.toLowerCase()` of JavaScript. -/
def lowerStr (s : JStr) : JStr := s.map Char.toLower

/-- `hay.includes(needle)` of JavaScript: `needle` occurs contiguously in `hay`. -/
def jsIncludes (hay needle : JStr) : Bool :=
  match hay with
  | [] => needle.isEmpty
  | _ :: t => needle.isPrefixOf hay || jsIncludes t needle

/-- The information of a thrown error that `createRetryCondition` inspects:
`error.message` (always a string on a normalized `Error`; a missing message
is modelled as the empty string, which `?.toLowerCase() || ""` makes
indistinguishable from it) and the optional `error.code`. -/
structure ErrorInfo where
  message : JStr
  code : Option JStr
deriving DecidableEq

/-- One pass of the matching loops inside the closure returned by
`createRetryCondition` (`src/core/retry.ts` lines 137-156): some entry of
`set`, lowercased, occurs in the lowercased message or the lowercased code. -/
def matchesSet (set : List JStr) (e : ErrorInfo) : Bool :=
  set.any fun s =>
    jsIncludes (lowerStr e.message) (lowerStr s) ||
      jsIncludes (lowerStr (e.code.getD [])) (lowerStr s)

/-- `RetryHandler.createRetryCondition` (`src/core/retry.ts` lines 128-162):
the non-retryable set is checked first and short-circuits to `false`; a
non-empty retryable list then acts as an allow-list; otherwise every error
is retryable. -/
def createRetryCondition (retryableErrors nonRetryableErrors : List JStr)
    (e : ErrorInfo) : Bool :=
  if matchesSet nonRetryableErrors e then false
  else if retryableErrors.length > 0 then matchesSet retryableErrors e
  else true

/-- `RetryHandler.conditions.slack` (`src/core/retry.ts` lines 175-178). -/
def slackCondition : ErrorInfo → Bool :=
  createRetryCondition
    ["rate_limited".data, "timeout".data, "server_error".data,
      "service_unavailable".data]
    ["invalid_token".data, "channel_not_found".data, "user_not_found".data]

/-- `RetryHandler.conditions.email` (`src/core/retry.ts` lines 181-184). -/
def emailCondition : ErrorInfo → Bool :=
  createRetryCondition
    ["timeout".data, "quota_exceeded".data, "service_unavailable".data,
      "temporary_failure".data]
    ["invalid_email".data, "bounce".data, "spam".data, "blocked".data]

/-- `RetryHandler.conditions.webhook` (`src/core/retry.ts` lines 187-190). -/
def webhookCondition : ErrorInfo → Bool :=
  createRetryCondition
    ["timeout".data, "connection".data, "server_error".data,
      "service_unavailable".data]
    ["unauthorized".data, "forbidden".data, "not_found".data,
      "bad_request".data]

/-- `RetryOptions` merged with `RetryHandler.defaultOptions`: the defaults
are the configuration defaults `MAX_RETRY_ATTEMPTS=3`, `RETRY_DELAY_MS=2000`,
`RETRY_BACKOFF_MULTIPLIER=2.5` (`src/config/index.ts`) and the hard-coded
`maxDelayMs = 30000`, `retryCondition = () => true`. -/
structure RetryOptions where
  maxAttempts : Nat := 3
  delayMs : ℚ := 2000
  backoffMultiplier : ℚ := 5 / 2
  maxDelayMs : ℚ := 30000
  retryCondition : ErrorInfo → Bool := fun _ => true

/-- `RetryResult<T>` of `src/core/retry.ts` (the wall-clock `totalTimeMs`
field is not modelled). -/
structure RetryResult (T : Type) where
  success : Bool
  data : Option T := none
  error : Option ErrorInfo := none
  attempts : Nat
deriving DecidableEq

/-- The `for (let attempt = 1; attempt <= opts.maxAttempts; attempt++)` loop
of `RetryHandler.execute` (`src/core/retry.ts` lines 48-106), plus the
failure return after the loop (lines 110-115, which reports
`attempts: opts.maxAttempts`).  `op n` is the outcome of the `n`-th
invocation of `operation`.  The second component counts the invocations of
`operation` actually made. -/
def executeFrom {T : Type} (op : Nat → Except ErrorInfo T)
    (cond : ErrorInfo → Bool) (maxAttempts attempt left : Nat) :
    RetryResult T × Nat :=
  match op attempt with
  | Except.ok r => ({ success := true, data := some r, attempts := attempt }, attempt)
  | Except.error e =>
    if cond e = false then
      ({ success := false, error := some e, attempts := maxAttempts }, attempt)
    else
      match left with
      | 0 => ({ success := false, error := some e, attempts := maxAttempts }, attempt)
      | left' + 1 => executeFrom op cond maxAttempts (attempt + 1) left'
termination_by structural left

/-- `RetryHandler.execute` (`src/core/retry.ts` lines 39-116).  When
`maxAttempts = 0` the loop body never runs and the post-loop failure result
is returned with `lastError` still `undefined`.  Otherwise the loop starts
at `attempt = 1` with `maxAttempts - 1` further attempts available (the
recursion consumes one unit of `left` where the source checks
`attempt === opts.maxAttempts`). -/
def execute {T : Type} (op : Nat → Except ErrorInfo T) (opts : RetryOptions) :
    RetryResult T × Nat :=
  if opts.maxAttempts = 0 then
    ({ success := false, error := none, attempts := opts.maxAttempts }, 0)
  else
    executeFrom op opts.retryCondition opts.maxAttempts 1 (opts.maxAttempts - 1)

/-- `RateLimitResult` of `src/core/limiter.ts`. -/
structure RateLimitResult where
  allowed : Bool
  remaining : ℤ
  resetTime : ℤ
  retryAfter : Option ℤ := none

/-- The limiter's configuration (`RATE_LIMIT_WINDOW_MS`,
`RATE_LIMIT_MAX_REQUESTS` of `src/config/index.ts`). -/
structure RateLimitConfig where
  windowMs : ℤ
  maxRequests : Nat

/-- `pipeline.zremrangebyscore(key, 0, windowStart)`: drop every stored
timestamp with score in `[0, windowStart]`.  The stored set is modelled as
a list of distinct timestamps (a Redis sorted set keyed by the timestamp's
string form). -/
def pruneWindow (windowStart : ℤ) (st : List ℤ) : List ℤ :=
  st.filter fun t => decide ¬(0 ≤ t ∧ t ≤ windowStart)

/-- `pipeline.zadd(key, now, now.toString())`: adding the member `now` to
the sorted set is a no-op when it is already present. -/
def zaddNow (now : ℤ) (st : List ℤ) : List ℤ :=
  if now ∈ st then st else st ++ [now]

/-- `redis.zrange(key, 0, 0, "WITHSCORES")` restricted to its score: the
least timestamp of the set, if any. -/
def oldestEntry : List ℤ → Option ℤ
  | [] => none
  | t :: ts =>
    match oldestEntry ts with
    | none => some t
    | some m => some (min t m)

/-- The `try` block of `RateLimiter.checkRateLimit` (`src/core/limiter.ts`
lines 32-85): prune, count, add `now` unconditionally, then read the result
off the count taken before the add.  `resetTime` is computed from a
`zrange` issued after the pipeline, so it sees the state with `now` added.
Returns the result together with the new stored state. -/
def checkRateLimitCore (cfg : RateLimitConfig) (now : ℤ) (st : List ℤ) :
    RateLimitResult × List ℤ :=
  let windowStart := now - cfg.windowMs
  let pruned := pruneWindow windowStart st
  let currentCount := pruned.length
  let newState := zaddNow now pruned
  let isAllowed := decide (currentCount < cfg.maxRequests)
  let resetTime :=
    match oldestEntry newState with
    | some t => t + cfg.windowMs
    | none => now + cfg.windowMs
  { allowed := isAllowed,
    remaining := max 0 ((cfg.maxRequests : ℤ) - currentCount),
    resetTime := resetTime,
    retryAfter :=
      if isAllowed then none
      else some (Int.ceil (((resetTime - now : ℤ) : ℚ) / 1000)) } |>
    fun r => (r, newState)

/-- `RateLimiter.checkRateLimit` (`src/core/limiter.ts` lines 27-99): the
`catch` branch fails open when the backing store throws (`storeFails`),
returning `allowed: true` with `remaining: maxRequests - 1` and leaving the
store as it was. -/
def checkRateLimit (cfg : RateLimitConfig) (now : ℤ) (st : List ℤ)
    (storeFails : Bool) : RateLimitResult × List ℤ :=
  if storeFails then
    ({ allowed := true, remaining := (cfg.maxRequests : ℤ) - 1,
        resetTime := now + cfg.windowMs }, st)
  else
    checkRateLimitCore cfg now st

/-- `NotificationQueue.getJobPriority` (`src/queue/queue.ts` lines 93-98). -/
def getJobPriority (score : ℚ) : Nat :=
  if score ≥ 80 then 1
  else if score ≥ 60 then 2
  else if score ≥ 30 then 3
  else 4

/-- `NotificationQueue.getJobDelay` (`src/queue/queue.ts` lines 103-107). -/
def getJobDelay (score : ℚ) : Nat :=
  if score ≥ 60 then 0
  else if score ≥ 30 then 5000
  else 30000

/-- The `priority` labels of the system. -/
inductive Priority where
  | low
  | medium
  | high
  | critical
deriving DecidableEq

/-- The job payload `addJob` receives and stores unchanged
(`src/queue/queue.ts` lines 62-88; `createdAt` and the metadata bag are
not relevant to the claims and omitted). -/
structure StoredJob where
  userId : JStr
  channel : JStr
  message : JStr
  score : ℚ
  priority : Priority
  target : Option JStr

/-- What `queue.add` is handed by `addJob`: the payload plus the scheduling
options derived from the score. -/
structure QueuedJob where
  data : StoredJob
  priorityRank : Nat
  delayMs : Nat

/-- `NotificationQueue.addJob` (`src/queue/queue.ts` lines 62-88): stores
the payload as given and derives the scheduling priority and delay from its
score. -/
def addJob (payload : StoredJob) : QueuedJob :=
  { data := payload,
    priorityRank := getJobPriority payload.score,
    delayMs := getJobDelay payload.score }

/-- `ScoringResult` of `src/core/scorer.ts`. -/
structure ScoringResult where
  score : ℚ
  reasoning : JStr
  priority : Priority
  shouldSend : Bool
deriving DecidableEq

/-- `AIScorer.validatePriority` (`src/core/scorer.ts` lines 160-171):
lowercase the value and keep it when it is one of the four labels,
otherwise `medium`; a missing value (`priority?.toLowerCase()` is
`undefined`) also falls back to `medium`. -/
def validatePriority (p : Option JStr) : Priority :=
  match p with
  | none => Priority.medium
  | some s =>
    let n := lowerStr s
    if n = "low".data then Priority.low
    else if n = "medium".data then Priority.medium
    else if n = "high".data then Priority.high
    else if n = "critical".data then Priority.critical
    else Priority.medium

/-- `Math.max(0, Math.min(100, x))` of `parseScoringResponse`. -/
def clampScore (x : ℚ) : ℚ := max 0 (min 100 x)

/-- What the two text-analysis steps of `AIScorer.parseScoringResponse`
(`src/core/scorer.ts` lines 122-155) extract from the model's reply; the
regular-expression matching and `JSON.parse` themselves are treated as an
oracle over the reply text.
* `jsonOk`: the `/\{[\s\S]*\}/` match succeeded and `JSON.parse` did not
  throw.  `score` is `Number(parsed.score)` with `none` for `NaN`;
  `reasoning` is `parsed.reasoning` with `none` for any falsy value;
  `priority` is `parsed.priority` (absent: `none`); `shouldSend` is
  `Boolean(parsed.shouldSend)`.
* `fallback`: no JSON object was found or `JSON.parse` threw.
  `scoreDigits` is the digit group of `/score[:\s]*(\d+)/i` when it
  matches; `first200` is `content.substring(0, 200)`; `priorityWord` the
  group of the priority regex; `shouldSendTrue` is whether the matched
  word of the shouldSend regex equals `"true"`, when it matches. -/
inductive ParseOutcome where
  | jsonOk (score : Option ℚ) (reasoning : Option JStr) (priority : Option JStr)
      (shouldSend : Bool)
  | fallback (scoreDigits : Option Nat) (first200 : JStr)
      (priorityWord : Option JStr) (shouldSendTrue : Option Bool)

/-- `AIScorer.parseScoringResponse` (`src/core/scorer.ts` lines 122-155)
over the oracle outcome.  In the JSON branch `Number(parsed.score) || 50`
replaces both `NaN` and `0` by `50` before clamping. -/
def parseScoringResponse (o : ParseOutcome) : ScoringResult :=
  match o with
  | ParseOutcome.jsonOk score reasoning priority shouldSend =>
    { score := clampScore (match score with
        | none => 50
        | some x => if x = 0 then 50 else x),
      reasoning := reasoning.getD "No reasoning provided".data,
      priority := validatePriority priority,
      shouldSend := shouldSend }
  | ParseOutcome.fallback scoreDigits first200 priorityWord shouldSendTrue =>
    { score := match scoreDigits with
        | some d => clampScore d
        | none => 50,
      reasoning := first200,
      priority := validatePriority (some (priorityWord.getD "medium".data)),
      shouldSend := shouldSendTrue.getD true }

/-- The fixed result of the `catch` branch of `AIScorer.scoreMessage`
(`src/core/scorer.ts` lines 89-95). -/
def fallbackScoringResult : ScoringResult :=
  { score := 50,
    reasoning := "Fallback score due to AI scoring error".data,
    priority := Priority.medium,
    shouldSend := true }

/-- Outcome of the external OpenAI call inside `AIScorer.scoreMessage`:
the call threw, or resolved without usable content
(`response.choices[0]?.message?.content` falsy, which makes the method
throw `"No response from OpenAI"` into its own catch), or produced content
whose parsing is the given oracle outcome. -/
inductive ScorerCallOutcome where
  | threw (msg : JStr)
  | noContent
  | gotContent (o : ParseOutcome)

/-- `AIScorer.scoreMessage` (`src/core/scorer.ts` lines 33-97): any error
in the try block lands in the catch, which returns the fixed fallback
result instead of rethrowing. -/
def scoreMessage (call : ScorerCallOutcome) : ScoringResult :=
  match call with
  | ScorerCallOutcome.threw _ => fallbackScoringResult
  | ScorerCallOutcome.noContent => fallbackScoringResult
  | ScorerCallOutcome.gotContent o => parseScoringResponse o

/-- The `POST /notify` handler's submission step
(`src/api/routes/notify.ts` lines 37-67): the stored job's `score` and
`priority` come from the scorer's result; everything else is the caller's
payload. -/
def notifySubmit (call : ScorerCallOutcome)
    (userId channel message : JStr) (target : Option JStr) : QueuedJob :=
  let scoring := scoreMessage call
  addJob
    { userId := userId, channel := channel, message := message,
      score := scoring.score, priority := scoring.priority, target := target }

/-- `JobResult` of `src/queue/queue.ts` as the worker fills it. -/
structure JobResult where
  success : Bool
  deliveryTime : Option Nat := none
  error : Option JStr := none
  attempts : Nat
deriving DecidableEq

/-- The per-job data `processJob` consults (`job.data.channel`,
`job.data.target`, and BullMQ's `job.attemptsMade`); the message payload is
opaque to the control flow and omitted. -/
structure WorkerJob where
  channel : JStr
  target : Option JStr
  attemptsMade : Nat
deriving DecidableEq

/-- The `JobResult` each `deliverTo…` method builds from a `RetryResult`
(`src/queue/worker.ts` lines 122-126, 150-154, 183-187):
`error: result.error?.message`. -/
def mkDeliveryResult (r : RetryResult Unit) : JobResult :=
  { success := r.success,
    error := r.error.map ErrorInfo.message,
    attempts := r.attempts }

/-- `NotificationWorker.deliverToSlack` (`src/queue/worker.ts` lines
109-127): no target check (the target defaults to the configured channel);
`env n` is the outcome of the `n`-th Slack send attempt. -/
def deliverToSlack (env : Nat → Except ErrorInfo Unit) : JobResult :=
  mkDeliveryResult (execute env { retryCondition := slackCondition }).1

/-- `NotificationWorker.deliverToEmail` (`src/queue/worker.ts` lines
132-155): throws when the job has no target. -/
def deliverToEmail (job : WorkerJob) (env : Nat → Except ErrorInfo Unit) :
    Except JStr JobResult :=
  match job.target with
  | none => Except.error "Email target address is required".data
  | some _ =>
    Except.ok (mkDeliveryResult (execute env { retryCondition := emailCondition }).1)

/-- `NotificationWorker.deliverToWebhook` (`src/queue/worker.ts` lines
160-188): throws when the job has no target. -/
def deliverToWebhook (job : WorkerJob) (env : Nat → Except ErrorInfo Unit) :
    Except JStr JobResult :=
  match job.target with
  | none => Except.error "Webhook URL is required".data
  | some _ =>
    Except.ok (mkDeliveryResult (execute env { retryCondition := webhookCondition }).1)

/-- The routing `switch` inside the `try` of `NotificationWorker.processJob`
(`src/queue/worker.ts` lines 58-70): an unsupported channel throws. -/
def routeDelivery (job : WorkerJob) (env : Nat → Except ErrorInfo Unit) :
    Except JStr JobResult :=
  if job.channel = "slack".data then Except.ok (deliverToSlack env)
  else if job.channel = "email".data then deliverToEmail job env
  else if job.channel = "webhook".data then deliverToWebhook job env
  else Except.error ("Unsupported channel: ".data ++ job.channel)

/-- `NotificationWorker.processJob` (`src/queue/worker.ts` lines 41-104):
the routing `switch` inside a `try` whose `catch` converts any thrown
error into a resolved failure `JobResult` carrying the error message and
`job.attemptsMade`.  The `Except` return mirrors the promise: an
`Except.error` would be a rejected promise.  `elapsed` is the measured
wall-clock delivery time set on the success path of the `try`. -/
def processJob (job : WorkerJob) (env : Nat → Except ErrorInfo Unit)
    (elapsed : Nat) : Except JStr JobResult :=
  match routeDelivery job env with
  | Except.ok r => Except.ok { r with deliveryTime := some elapsed }
  | Except.error msg =>
    Except.ok { success := false, error := some msg, attempts := job.attemptsMade }

/-- A job's terminal queue state. -/
inductive SettledState where
  | completed (ret : JobResult)
  | failed (reason : JStr)
deriving DecidableEq

/-- Modelled from the spec (§4.4 state machine; the queue store itself is
the external BullMQ library, so this step relation is not in `src/`): one
processor run per queue-level attempt, `run k` being the `k`-th run's
promise outcome.  A resolved run completes the job with the resolved value;
a rejected run consumes one queue-level attempt, re-entering `active` while
attempts remain (`left`) and otherwise ending terminal `failed` with the
rejection reason.  The second component counts processor runs. -/
def settleFrom (run : Nat → Except JStr JobResult) (k left : Nat) :
    SettledState × Nat :=
  match run k with
  | Except.ok r => (SettledState.completed r, k)
  | Except.error msg =>
    match left with
    | 0 => (SettledState.failed msg, k)
    | left' + 1 => settleFrom run (k + 1) left'
termination_by structural left

/-- A job settled under the queue's attempt ceiling (`attempts: 3` in
`src/queue/queue.ts` line 43): up to `ceiling` processor runs starting at
run 1. -/
def settleJob (ceiling : Nat) (run : Nat → Except JStr JobResult) :
    SettledState × Nat :=
  settleFrom run 1 (ceiling - 1)

/-- One processor run of a stored job: BullMQ hands `processJob` the job
with `attemptsMade = k - 1` on its `k`-th run. -/
def processorRun (job : WorkerJob) (env : Nat → Except ErrorInfo Unit)
    (elapsed : Nat) (k : Nat) : Except JStr JobResult :=
  processJob { job with attemptsMade := k - 1 } env elapsed

/-- C1: for every score, `addJob` assigns scheduling priority rank 1 iff
score ≥ 80, rank 2 iff 60 ≤ score < 80, rank 3 iff 30 ≤ score < 60 and
rank 4 iff score < 30; and initial delay 0 iff score ≥ 60, 5000 ms iff
30 ≤ score < 60 and 30000 ms iff score < 30. -/
theorem addJob_priority_delay_total (p : StoredJob) :
    ((addJob p).priorityRank = 1 ↔ 80 ≤ p.score) ∧
    ((addJob p).priorityRank = 2 ↔ 60 ≤ p.score ∧ p.score < 80) ∧
    ((addJob p).priorityRank = 3 ↔ 30 ≤ p.score ∧ p.score < 60) ∧
    ((addJob p).priorityRank = 4 ↔ p.score < 30) ∧
    ((addJob p).delayMs = 0 ↔ 60 ≤ p.score) ∧
    ((addJob p).delayMs = 5000 ↔ 30 ≤ p.score ∧ p.score < 60) ∧
    ((addJob p).delayMs = 30000 ↔ p.score < 30) := by
  unfold addJob getJobPriority getJobDelay
  dsimp only
  split_ifs <;>
    refine ⟨?_, ?_, ?_, ?_, ?_, ?_, ?_⟩ <;>
    constructor <;>
    intro h <;>
    first
      | rfl
      | linarith
      | (exact absurd h (by decide))
      | (exact ⟨by linarith, by linarith⟩)

/-- C9: when the scorer's external call throws or yields no usable content,
`scoreMessage` returns the fixed neutral fallback result — score 50,
priority `medium`, `shouldSend = true` — instead of propagating the
error. -/
theorem scoreMessage_fallback_on_failure (msg : JStr) :
    scoreMessage (ScorerCallOutcome.threw msg) = fallbackScoringResult ∧
    scoreMessage ScorerCallOutcome.noContent = fallbackScoringResult ∧
    fallbackScoringResult.score = 50 ∧
    fallbackScoringResult.priority = Priority.medium ∧
    fallbackScoringResult.shouldSend = true :=
  ⟨rfl, rfl, rfl, rfl, rfl⟩

/-- C7: when the backing store throws during a rate-limit check,
`checkRateLimit` fails open, returning `allowed = true` (and leaving the
store untouched) instead of propagating the error or denying the
request. -/
theorem checkRateLimit_fails_open (cfg : RateLimitConfig) (now : ℤ)
    (st : List ℤ) :
    (checkRateLimit cfg now st true).1.allowed = true ∧
    (checkRateLimit cfg now st true).2 = st :=
  ⟨rfl, rfl⟩

/-- C8: every job stored through the submission path has score in [0,100]:
the scorer's result is clamped (or is the fallback 50) before `addJob`
stores it unchanged. -/
theorem notifySubmit_score_in_range (call : ScorerCallOutcome)
    (userId channel message : JStr) (target : Option JStr) :
    0 ≤ (notifySubmit call userId channel message target).data.score ∧
    (notifySubmit call userId channel message target).data.score ≤ 100 := by
  have hclamp : ∀ x : ℚ, 0 ≤ clampScore x ∧ clampScore x ≤ 100 := by
    intro x
    unfold clampScore
    constructor
    · exact le_max_left 0 _
    · exact max_le (by norm_num) (min_le_left 100 x)
  unfold notifySubmit addJob
  dsimp only
  unfold scoreMessage
  cases call with
  | threw m => exact ⟨by norm_num [fallbackScoringResult], by norm_num [fallbackScoringResult]⟩
  | noContent => exact ⟨by norm_num [fallbackScoringResult], by norm_num [fallbackScoringResult]⟩
  | gotContent o =>
    cases o with
    | jsonOk score reasoning priority shouldSend =>
      dsimp only [parseScoringResponse]
      exact hclamp _
    | fallback scoreDigits first200 priorityWord shouldSendTrue =>
      dsimp only [parseScoringResponse]
      cases scoreDigits with
      | none => norm_num
      | some d => exact hclamp _

/-- C4: each channel predicate classifies by case-insensitive substring
matching against message and code, non-retryable set first: a non-retryable
match wins even over a retryable match; with a non-empty retryable list an
error matching neither set is not retryable; for chat, any error whose code
contains `invalid_token` is non-retryable, and an error carrying
`rate_limited` in its message (and no non-retryable match) is retryable. -/
theorem channel_retry_predicates_classify :
    (∀ (r nr : List JStr) (e : ErrorInfo),
      matchesSet nr e = true → createRetryCondition r nr e = false) ∧
    (∀ (r nr : List JStr) (e : ErrorInfo),
      r ≠ [] → matchesSet nr e = false → matchesSet r e = false →
      createRetryCondition r nr e = false) ∧
    (∀ e : ErrorInfo,
      jsIncludes (lowerStr (e.code.getD [])) "invalid_token".data = true →
      slackCondition e = false) ∧
    (∀ e : ErrorInfo,
      matchesSet ["invalid_token".data, "channel_not_found".data,
        "user_not_found".data] e = false →
      jsIncludes (lowerStr e.message) "rate_limited".data = true →
      slackCondition e = true) ∧
    slackCondition ⟨"invalid_token".data, none⟩ = false ∧
    slackCondition ⟨"".data, some "invalid_token".data⟩ = false ∧
    slackCondition ⟨"Rate_Limited by the API".data, none⟩ = true := by
  have hlowtok : lowerStr "invalid_token".data = "invalid_token".data := by decide
  have hlowrate : lowerStr "rate_limited".data = "rate_limited".data := by decide
  refine ⟨?_, ?_, ?_, ?_, by decide, by decide, by decide⟩
  · intro r nr e h
    unfold createRetryCondition
    rw [h]
    simp
  · intro r nr e hr hnr hrm
    unfold createRetryCondition
    rw [hnr]
    have hlen : 0 < r.length := List.length_pos.mpr hr
    simp [hlen, hrm]
  · intro e h
    have hm : matchesSet ["invalid_token".data, "channel_not_found".data,
        "user_not_found".data] e = true := by
      unfold matchesSet
      simp only [List.any_cons, List.any_nil, Bool.or_eq_true]
      left
      right
      rw [hlowtok]
      exact h
    unfold slackCondition createRetryCondition
    rw [hm]
    simp
  · intro e hnr hmsg
    have hm : matchesSet ["rate_limited".data, "timeout".data,
        "server_error".data, "service_unavailable".data] e = true := by
      unfold matchesSet
      simp only [List.any_cons, List.any_nil, Bool.or_eq_true]
      left
      left
      rw [hlowrate]
      exact hmsg
    unfold slackCondition createRetryCondition
    rw [hnr, hm]
    simp

/-- C3 counterexample: a non-retryable error on the first attempt of
`maxAttempts = 5` makes exactly one invocation, but the returned
`RetryResult` reports `attempts = 5`, not the 1 attempt actually made. -/
theorem execute_nonretryable_reports_maxAttempts :
    (execute (fun _ => (Except.error ⟨"unauthorized".data, none⟩ : Except ErrorInfo Unit))
      { maxAttempts := 5, retryCondition := webhookCondition }).2 = 1 ∧
    (execute (fun _ => (Except.error ⟨"unauthorized".data, none⟩ : Except ErrorInfo Unit))
      { maxAttempts := 5, retryCondition := webhookCondition }).1.attempts = 5 := by
  decide

/-- Every failure result of the retry loop reports `attempts = maxAttempts`
(`src/core/retry.ts` line 113), whatever the actual invocation count. -/
theorem executeFrom_failure_reports_max {T : Type} (op : Nat → Except ErrorInfo T)
    (cond : ErrorInfo → Bool) (maxAttempts : Nat) :
    ∀ left attempt,
      ((executeFrom op cond maxAttempts attempt left).1.success = false →
        (executeFrom op cond maxAttempts attempt left).1.attempts = maxAttempts) := by
  intro left
  induction left with
  | zero =>
    intro attempt
    unfold executeFrom
    cases op attempt with
    | ok r => intro h; exact absurd h (by simp)
    | error e =>
      dsimp only
      by_cases hc : cond e = false
      · rw [if_pos hc]; intro _; rfl
      · rw [if_neg hc]; intro _; rfl
  | succ left' ih =>
    intro attempt
    unfold executeFrom
    cases op attempt with
    | ok r => intro h; exact absurd h (by simp)
    | error e =>
      dsimp only
      by_cases hc : cond e = false
      · rw [if_pos hc]; intro _; rfl
      · rw [if_neg hc]; exact ih (attempt + 1)

/-- C3 amended: when the retry condition classifies the error of the first
attempt as non-retryable, `execute` stops immediately after exactly one
invocation of the operation; but the failure `RetryResult` always reports
`attempts = maxAttempts`, not the number of attempts actually made (so a
non-retryable error on attempt 1 of `maxAttempts = 5` yields `attempts = 5`
after one invocation). -/
theorem execute_nonretryable_short_circuit {T : Type}
    (op : Nat → Except ErrorInfo T) (opts : RetryOptions) (e : ErrorInfo)
    (hmax : 1 ≤ opts.maxAttempts) (hop : op 1 = Except.error e)
    (hcond : opts.retryCondition e = false) :
    execute op opts =
      ({ success := false, error := some e, attempts := opts.maxAttempts }, 1) ∧
    (∀ (op2 : Nat → Except ErrorInfo T) (opts2 : RetryOptions),
      (execute op2 opts2).1.success = false →
      (execute op2 opts2).1.attempts = opts2.maxAttempts) := by
  constructor
  · have hne : ¬ opts.maxAttempts = 0 := by omega
    unfold execute
    rw [if_neg hne]
    unfold executeFrom
    rw [hop]
    dsimp only
    rw [if_pos hcond]
  · intro op2 opts2
    unfold execute
    by_cases h0 : opts2.maxAttempts = 0
    · rw [if_pos h0]; intro _; rfl
    · rw [if_neg h0]
      exact executeFrom_failure_reports_max op2 opts2.retryCondition
        opts2.maxAttempts (opts2.maxAttempts - 1) 1

/-- Witness for `execute_nonretryable_short_circuit` at a concrete
non-retryable webhook error. -/
theorem execute_nonretryable_short_circuit_witness :
    execute (fun _ => (Except.error ⟨"forbidden".data, none⟩ : Except ErrorInfo Unit))
      { maxAttempts := 4, retryCondition := webhookCondition } =
      ({ success := false, error := some ⟨"forbidden".data, none⟩, attempts := 4 }, 1) ∧
    (∀ (op2 : Nat → Except ErrorInfo Unit) (opts2 : RetryOptions),
      (execute op2 opts2).1.success = false →
      (execute op2 opts2).1.attempts = opts2.maxAttempts) :=
  execute_nonretryable_short_circuit
    (fun _ => (Except.error ⟨"forbidden".data, none⟩ : Except ErrorInfo Unit))
    { maxAttempts := 4, retryCondition := webhookCondition }
    ⟨"forbidden".data, none⟩ (by decide) rfl (by decide)

/-- Every failure result of the retry loop carries the last error. -/
theorem executeFrom_failure_has_error {T : Type} (op : Nat → Except ErrorInfo T)
    (cond : ErrorInfo → Bool) (maxAttempts : Nat) :
    ∀ left attempt,
      ((executeFrom op cond maxAttempts attempt left).1.success = false →
        ((executeFrom op cond maxAttempts attempt left).1.error).isSome = true) := by
  intro left
  induction left with
  | zero =>
    intro attempt
    unfold executeFrom
    cases op attempt with
    | ok r => intro h; exact absurd h (by simp)
    | error e =>
      dsimp only
      by_cases hc : cond e = false
      · rw [if_pos hc]; intro _; rfl
      · rw [if_neg hc]; intro _; rfl
  | succ left' ih =>
    intro attempt
    unfold executeFrom
    cases op attempt with
    | ok r => intro h; exact absurd h (by simp)
    | error e =>
      dsimp only
      by_cases hc : cond e = false
      · rw [if_pos hc]; intro _; rfl
      · rw [if_neg hc]; exact ih (attempt + 1)

/-- A failed `execute` under a positive attempt ceiling carries the last
error. -/
theorem execute_failure_has_error {T : Type} (op : Nat → Except ErrorInfo T)
    (opts : RetryOptions) (h0 : opts.maxAttempts ≠ 0)
    (hfail : (execute op opts).1.success = false) :
    ((execute op opts).1.error).isSome = true := by
  unfold execute at hfail ⊢
  rw [if_neg h0] at hfail ⊢
  exact executeFrom_failure_has_error op opts.retryCondition opts.maxAttempts
    (opts.maxAttempts - 1) 1 hfail

/-- A delivery result built from a failed retry run records the error
message. -/
theorem mkDeliveryResult_failure_has_error (r : RetryResult Unit)
    (hfail : r.success = false) (herr : (r.error).isSome = true) :
    ((mkDeliveryResult r).error).isSome = true := by
  unfold mkDeliveryResult
  dsimp only
  cases h : r.error with
  | none => rw [h] at herr; exact absurd herr (by simp)
  | some e => rfl

/-- `processJob` always resolves. -/
theorem processJob_resolves (job : WorkerJob) (env : Nat → Except ErrorInfo Unit)
    (elapsed : Nat) :
    ∃ r : JobResult, processJob job env elapsed = Except.ok r := by
  unfold processJob
  cases routeDelivery job env with
  | ok r => exact ⟨_, rfl⟩
  | error msg => exact ⟨_, rfl⟩

/-- C10: `processJob` always resolves with a `JobResult` and never rejects:
an unsupported channel becomes a resolved failure result carrying the
`Unsupported channel` message and `job.attemptsMade`; every resolved
failure result carries an error message; and the queue layer, seeing only
resolved runs, completes the job after a single processor run — it never
redelivers a failed attempt. -/
theorem processJob_never_rejects (job : WorkerJob)
    (env : Nat → Except ErrorInfo Unit) (elapsed : Nat) :
    (∃ r : JobResult, processJob job env elapsed = Except.ok r) ∧
    (job.channel ≠ "slack".data → job.channel ≠ "email".data →
      job.channel ≠ "webhook".data →
      processJob job env elapsed = Except.ok
        { success := false,
          error := some ("Unsupported channel: ".data ++ job.channel),
          attempts := job.attemptsMade }) ∧
    (∀ r : JobResult, processJob job env elapsed = Except.ok r →
      r.success = false → (r.error).isSome = true) ∧
    (settleJob 3 (processorRun job env elapsed)).2 = 1 ∧
    (∃ r : JobResult,
      (settleJob 3 (processorRun job env elapsed)).1 = SettledState.completed r) := by
  refine ⟨processJob_resolves job env elapsed, ?_, ?_, ?_, ?_⟩
  · intro h1 h2 h3
    unfold processJob routeDelivery
    rw [if_neg h1, if_neg h2, if_neg h3]
  · intro r hr hfail
    unfold processJob at hr
    cases hroute : routeDelivery job env with
    | error msg =>
      rw [hroute] at hr
      dsimp only at hr
      cases hr
      rfl
    | ok r0 =>
      rw [hroute] at hr
      dsimp only at hr
      cases hr
      dsimp only at hfail ⊢
      have hr0 : (r0.error).isSome = true := by
        unfold routeDelivery at hroute
        by_cases h1 : job.channel = "slack".data
        · rw [if_pos h1] at hroute
          cases hroute
          exact mkDeliveryResult_failure_has_error _ hfail
            (execute_failure_has_error _ _ (by decide) hfail)
        · rw [if_neg h1] at hroute
          by_cases h2 : job.channel = "email".data
          · rw [if_pos h2] at hroute
            unfold deliverToEmail at hroute
            cases htgt : job.target with
            | none => rw [htgt] at hroute; cases hroute
            | some tgt =>
              rw [htgt] at hroute
              dsimp only at hroute
              cases hroute
              exact mkDeliveryResult_failure_has_error _ hfail
                (execute_failure_has_error _ _ (by decide) hfail)
          · rw [if_neg h2] at hroute
            by_cases h3 : job.channel = "webhook".data
            · rw [if_pos h3] at hroute
              unfold deliverToWebhook at hroute
              cases htgt : job.target with
              | none => rw [htgt] at hroute; cases hroute
              | some tgt =>
                rw [htgt] at hroute
                dsimp only at hroute
                cases hroute
                exact mkDeliveryResult_failure_has_error _ hfail
                  (execute_failure_has_error _ _ (by decide) hfail)
            · rw [if_neg h3] at hroute
              cases hroute
      exact hr0
  · obtain ⟨r, hr⟩ := processJob_resolves { job with attemptsMade := 0 } env elapsed
    unfold settleJob settleFrom processorRun
    rw [show (1 : Nat) - 1 = 0 from rfl, hr]
  · obtain ⟨r, hr⟩ := processJob_resolves { job with attemptsMade := 0 } env elapsed
    refine ⟨r, ?_⟩
    unfold settleJob settleFrom processorRun
    rw [show (1 : Nat) - 1 = 0 from rfl, hr]

/-- C2 counterexample: a webhook job whose delivery always fails with a
retryable `timeout` does NOT end in the queue-level terminal `failed`
state: `processJob` resolves (its internal retry loop exhausted), so the
queue records the job as `completed`, carrying a failure `JobResult`. -/
theorem webhook_timeout_not_failed_state :
    (settleJob 3 (processorRun
        ⟨"webhook".data, some "https://example.com/hook".data, 0⟩
        (fun _ => Except.error ⟨"timeout".data, none⟩) 7)).1 =
      SettledState.completed
        { success := false, deliveryTime := some 7,
          error := some "timeout".data, attempts := 3 } ∧
    ¬ ∃ reason, (settleJob 3 (processorRun
        ⟨"webhook".data, some "https://example.com/hook".data, 0⟩
        (fun _ => Except.error ⟨"timeout".data, none⟩) 7)).1 =
      SettledState.failed reason := by
  constructor
  · decide
  · rintro ⟨reason, h⟩
    rw [show (settleJob 3 (processorRun
        ⟨"webhook".data, some "https://example.com/hook".data, 0⟩
        (fun _ => Except.error ⟨"timeout".data, none⟩) 7)).1 =
      SettledState.completed
        { success := false, deliveryTime := some 7,
          error := some "timeout".data, attempts := 3 } from by decide] at h
    exact SettledState.noConfusion h

/-- C2 amended: for a webhook job whose delivery always times out
(retryable), processing makes exactly 3 delivery attempts inside one
processor run; the job then settles — after that single run, with no
re-queueing — in the queue's `completed` state carrying a terminal
`JobResult` with `success = false`, `attempts = 3` and the last error
message (it never reaches the queue-level `failed` state, whose
`attempts: 3` redelivery configuration is unreachable because `processJob`
never rejects). -/
theorem webhook_timeout_three_attempts_then_completed :
    (execute (fun _ => (Except.error ⟨"timeout".data, none⟩ : Except ErrorInfo Unit))
      { retryCondition := webhookCondition }).2 = 3 ∧
    webhookCondition ⟨"timeout".data, none⟩ = true ∧
    settleJob 3 (processorRun
        ⟨"webhook".data, some "https://example.com/hook".data, 0⟩
        (fun _ => Except.error ⟨"timeout".data, none⟩) 7) =
      (SettledState.completed
        { success := false, deliveryTime := some 7,
          error := some "timeout".data, attempts := 3 }, 1) := by
  refine ⟨by decide, by decide, by decide⟩

/-- The stored window of one identity after the first `k` checks of a call
sequence, call `k` arriving at time `t k`, starting from an empty window
(a fresh identity). -/
def limiterStateAfter (cfg : RateLimitConfig) (t : Nat → ℤ) : Nat → List ℤ
  | 0 => []
  | k + 1 => (checkRateLimitCore cfg (t k) (limiterStateAfter cfg t k)).2

/-- The result returned to call `k` (0-based) of the call sequence. -/
def limiterCall (cfg : RateLimitConfig) (t : Nat → ℤ) (k : Nat) : RateLimitResult :=
  (checkRateLimitCore cfg (t k) (limiterStateAfter cfg t k)).1

/-- Pruning keeps a window whose entries are all inside it. -/
theorem pruneWindow_eq_self (ws : ℤ) (st : List ℤ)
    (h : ∀ a ∈ st, ws < a) : pruneWindow ws st = st := by
  unfold pruneWindow
  refine List.filter_eq_self.mpr fun a ha => ?_
  simp only [decide_eq_true_eq]
  rintro ⟨-, hle⟩
  exact absurd hle (not_le.mpr (h a ha))

/-- Pruning empties a window whose entries have all left it. -/
theorem pruneWindow_eq_nil (ws : ℤ) (st : List ℤ)
    (h : ∀ a ∈ st, 0 ≤ a ∧ a ≤ ws) : pruneWindow ws st = [] := by
  unfold pruneWindow
  rw [List.filter_eq_nil_iff]
  intro a ha
  simp only [decide_eq_true_eq, Decidable.not_not]
  exact h a ha

/-- The value `oldestEntry` reports is an element of the list. -/
theorem oldestEntry_mem : ∀ {l : List ℤ} {m : ℤ}, oldestEntry l = some m → m ∈ l := by
  intro l
  induction l with
  | nil => intro m h; exact absurd h (by simp [oldestEntry])
  | cons a l ih =>
    intro m h
    unfold oldestEntry at h
    cases hl : oldestEntry l with
    | none => rw [hl] at h; cases h; exact List.mem_cons_self a l
    | some m' =>
      rw [hl] at h
      cases h
      rcases min_cases a m' with ⟨hmin, -⟩ | ⟨hmin, -⟩
      · rw [hmin]; exact List.mem_cons_self a l
      · rw [hmin]; exact List.mem_cons_of_mem a (ih hl)

/-- `oldestEntry` of a list headed by its least element. -/
theorem oldestEntry_head (a : ℤ) (l : List ℤ) (h : ∀ x ∈ l, a ≤ x) :
    oldestEntry (a :: l) = some a := by
  unfold oldestEntry
  cases hl : oldestEntry l with
  | none => rfl
  | some m =>
    dsimp only
    rw [min_eq_left (h m (oldestEntry_mem hl))]

/-- The new stored state of one check: the pruned window plus `now`
(recorded unconditionally). -/
theorem checkRateLimitCore_state (cfg : RateLimitConfig) (now : ℤ) (st : List ℤ) :
    (checkRateLimitCore cfg now st).2 =
      zaddNow now (pruneWindow (now - cfg.windowMs) st) := rfl

/-- The admission verdict of one check: the pruned count against the
ceiling. -/
theorem checkRateLimitCore_allowed (cfg : RateLimitConfig) (now : ℤ) (st : List ℤ) :
    (checkRateLimitCore cfg now st).1.allowed =
      decide ((pruneWindow (now - cfg.windowMs) st).length < cfg.maxRequests) := rfl

/-- The hint returned with a denial: the time until the oldest stored entry
(including the just-recorded `now`) leaves the window, in whole seconds
rounded up. -/
theorem checkRateLimitCore_retryAfter_denied (cfg : RateLimitConfig) (now : ℤ)
    (st : List ℤ) (m : ℤ)
    (hfull : ¬ (pruneWindow (now - cfg.windowMs) st).length < cfg.maxRequests)
    (hold : oldestEntry (zaddNow now (pruneWindow (now - cfg.windowMs) st)) = some m) :
    (checkRateLimitCore cfg now st).1.retryAfter =
      some (Int.ceil (((m + cfg.windowMs - now : ℤ) : ℚ) / 1000)) := by
  unfold checkRateLimitCore
  dsimp only
  rw [hold]
  simp only [decide_eq_true_eq]
  rw [if_neg hfull]

/-- With strictly increasing call times all inside one window span, no
check's prune removes anything and every check appends its own timestamp:
after `k` calls the stored window is exactly the first `k` timestamps. -/
theorem limiterStateAfter_inside_window (cfg : RateLimitConfig) (t : Nat → ℤ)
    (hmono : ∀ i j, i < j → j ≤ cfg.maxRequests → t i < t j)
    (hwin : t cfg.maxRequests < t 0 + cfg.windowMs) :
    ∀ k, k ≤ cfg.maxRequests + 1 →
      limiterStateAfter cfg t k = (List.range k).map t := by
  have hle0 : ∀ i, i ≤ cfg.maxRequests → t 0 ≤ t i := by
    intro i hi
    rcases Nat.eq_zero_or_pos i with h | h
    · rw [h]
    · exact (hmono 0 i h hi).le
  have hlen : ∀ i, i ≤ cfg.maxRequests → t i ≤ t cfg.maxRequests := by
    intro i hi
    rcases eq_or_lt_of_le hi with h | h
    · rw [h]
    · exact (hmono i cfg.maxRequests h le_rfl).le
  intro k
  induction k with
  | zero => intro _; rfl
  | succ k ih =>
    intro hk
    have hk' : k ≤ cfg.maxRequests := by omega
    show (checkRateLimitCore cfg (t k) (limiterStateAfter cfg t k)).2 = _
    rw [ih (by omega), checkRateLimitCore_state]
    have hkeep : ∀ a ∈ (List.range k).map t, t k - cfg.windowMs < a := by
      intro a ha
      obtain ⟨i, hi, heq⟩ := List.mem_map.mp ha
      have hik : i < k := List.mem_range.mp hi
      have h1 : t 0 ≤ t i := hle0 i (by omega)
      have h2 : t k ≤ t cfg.maxRequests := hlen k hk'
      rw [← heq]
      linarith
    rw [pruneWindow_eq_self _ _ hkeep]
    have hnotmem : t k ∉ (List.range k).map t := by
      intro hmem
      obtain ⟨i, hi, heq⟩ := List.mem_map.mp hmem
      have hik : i < k := List.mem_range.mp hi
      have hlt := hmono i k hik hk'
      rw [heq] at hlt
      exact lt_irrefl _ hlt
    unfold zaddNow
    rw [if_neg hnotmem, List.range_succ, List.map_append]
    rfl

/-- C6 counterexample: a denied check still records its own timestamp:
with `maxRequests = 1`, a 1000 ms window and one stored entry at time 5,
the check at time 10 is denied, pruning alone would leave `[5]`, yet the
stored set becomes `[5, 10]`. -/
theorem checkRateLimit_denied_mutates :
    (checkRateLimit ⟨1000, 1⟩ 10 [5] false).1.allowed = false ∧
    pruneWindow ((10 : ℤ) - 1000) [5] = [5] ∧
    (checkRateLimit ⟨1000, 1⟩ 10 [5] false).2 = [5, 10] ∧
    (checkRateLimit ⟨1000, 1⟩ 10 [5] false).2 ≠ pruneWindow ((10 : ℤ) - 1000) [5] := by
  refine ⟨by decide, by decide, by decide, by decide⟩

/-- C6 amended: `checkRateLimit` records the current time as a new window
entry on every check, allowed or denied alike: the stored set after a
check is always the pruned window plus `now`, so a denied check whose
timestamp is not already stored changes the window beyond pruning. -/
theorem checkRateLimit_records_unconditionally (cfg : RateLimitConfig)
    (now : ℤ) (st : List ℤ) :
    (checkRateLimit cfg now st false).2 =
      zaddNow now (pruneWindow (now - cfg.windowMs) st) ∧
    (now ∉ pruneWindow (now - cfg.windowMs) st →
      (checkRateLimit cfg now st false).2 =
        pruneWindow (now - cfg.windowMs) st ++ [now]) := by
  constructor
  · rfl
  · intro h
    show zaddNow now (pruneWindow (now - cfg.windowMs) st) = _
    unfold zaddNow
    rw [if_neg h]

/-- C5: starting from an empty window for one identity, the first
`maxRequests` calls inside the window are all allowed; the next call still
inside the window is denied with `retryAfter > 0`; and once the window has
fully elapsed a further call is allowed again. -/
theorem rate_limiter_sliding_window (cfg : RateLimitConfig) (t : Nat → ℤ)
    (T : ℤ)
    (hpos : 0 < cfg.maxRequests)
    (h0 : 0 ≤ t 0)
    (hmono : ∀ i j, i < j → j ≤ cfg.maxRequests → t i < t j)
    (hwin : t cfg.maxRequests < t 0 + cfg.windowMs)
    (hT : t cfg.maxRequests + cfg.windowMs ≤ T) :
    (∀ k, k < cfg.maxRequests → (limiterCall cfg t k).allowed = true) ∧
    (limiterCall cfg t cfg.maxRequests).allowed = false ∧
    (∃ r, (limiterCall cfg t cfg.maxRequests).retryAfter = some r ∧ 0 < r) ∧
    (checkRateLimitCore cfg T
      (limiterStateAfter cfg t (cfg.maxRequests + 1))).1.allowed = true := by
  have hle0 : ∀ i, i ≤ cfg.maxRequests → t 0 ≤ t i := by
    intro i hi
    rcases Nat.eq_zero_or_pos i with h | h
    · rw [h]
    · exact (hmono 0 i h hi).le
  have hlen : ∀ i, i ≤ cfg.maxRequests → t i ≤ t cfg.maxRequests := by
    intro i hi
    rcases eq_or_lt_of_le hi with h | h
    · rw [h]
    · exact (hmono i cfg.maxRequests h le_rfl).le
  have hstate := limiterStateAfter_inside_window cfg t hmono hwin
  have hkeep : ∀ k, k ≤ cfg.maxRequests →
      ∀ a ∈ (List.range k).map t, t k - cfg.windowMs < a := by
    intro k hk a ha
    obtain ⟨i, hi, heq⟩ := List.mem_map.mp ha
    have hik : i < k := List.mem_range.mp hi
    have h1 : t 0 ≤ t i := hle0 i (by omega)
    have h2 : t k ≤ t cfg.maxRequests := hlen k hk
    rw [← heq]
    linarith
  have hnotmem : ∀ k, k ≤ cfg.maxRequests → t k ∉ (List.range k).map t := by
    intro k hk hmem
    obtain ⟨i, hi, heq⟩ := List.mem_map.mp hmem
    have hik : i < k := List.mem_range.mp hi
    have hlt := hmono i k hik hk
    rw [heq] at hlt
    exact lt_irrefl _ hlt
  refine ⟨?_, ?_, ?_, ?_⟩
  · intro k hk
    unfold limiterCall
    rw [hstate k (by omega), checkRateLimitCore_allowed,
      pruneWindow_eq_self _ _ (hkeep k (by omega)),
      List.length_map, List.length_range]
    exact decide_eq_true hk
  · unfold limiterCall
    rw [hstate cfg.maxRequests (by omega), checkRateLimitCore_allowed,
      pruneWindow_eq_self _ _ (hkeep cfg.maxRequests le_rfl),
      List.length_map, List.length_range]
    simp
  · unfold limiterCall
    rw [hstate cfg.maxRequests (by omega)]
    have hprune : pruneWindow (t cfg.maxRequests - cfg.windowMs)
        ((List.range cfg.maxRequests).map t) =
        (List.range cfg.maxRequests).map t :=
      pruneWindow_eq_self _ _ (hkeep cfg.maxRequests le_rfl)
    have happend : (List.range cfg.maxRequests).map t ++ [t cfg.maxRequests] =
        (List.range (cfg.maxRequests + 1)).map t := by
      rw [List.range_succ, List.map_append]
      rfl
    have hold : oldestEntry (zaddNow (t cfg.maxRequests)
        (pruneWindow (t cfg.maxRequests - cfg.windowMs)
          ((List.range cfg.maxRequests).map t))) = some (t 0) := by
      rw [hprune]
      unfold zaddNow
      rw [if_neg (hnotmem cfg.maxRequests le_rfl), happend,
        List.range_succ_eq_map, List.map_cons]
      refine oldestEntry_head _ _ fun x hx => ?_
      rw [List.map_map] at hx
      obtain ⟨i, hi, heq⟩ := List.mem_map.mp hx
      have hik : i < cfg.maxRequests := List.mem_range.mp hi
      rw [← heq]
      exact hle0 (i + 1) (by omega)
    have hfull : ¬ (pruneWindow (t cfg.maxRequests - cfg.windowMs)
        ((List.range cfg.maxRequests).map t)).length < cfg.maxRequests := by
      rw [hprune, List.length_map, List.length_range]
      exact lt_irrefl _
    rw [checkRateLimitCore_retryAfter_denied _ _ _ _ hfull hold]
    refine ⟨_, rfl, ?_⟩
    rw [Int.lt_iff_add_one_le, zero_add]
    have hq : (0 : ℚ) < ((t 0 + cfg.windowMs - t cfg.maxRequests : ℤ) : ℚ) / 1000 := by
      apply div_pos _ (by norm_num)
      exact_mod_cast (by linarith : (0 : ℤ) < t 0 + cfg.windowMs - t cfg.maxRequests)
    have := Int.ceil_pos.mpr hq
    omega
  · rw [hstate (cfg.maxRequests + 1) le_rfl, checkRateLimitCore_allowed]
    have hall : ∀ a ∈ (List.range (cfg.maxRequests + 1)).map t,
        0 ≤ a ∧ a ≤ T - cfg.windowMs := by
      intro a ha
      obtain ⟨i, hi, heq⟩ := List.mem_map.mp ha
      have hik : i < cfg.maxRequests + 1 := List.mem_range.mp hi
      have h1 : t 0 ≤ t i := hle0 i (by omega)
      have h2 : t i ≤ t cfg.maxRequests := hlen i (by omega)
      rw [← heq]
      constructor <;> linarith
    rw [pruneWindow_eq_nil _ _ hall]
    simpa using hpos

/-- Witness for `rate_limiter_sliding_window`: two requests per 1000 ms
window, calls at times 0, 1, 2 and a later call at time 2002. -/
theorem rate_limiter_sliding_window_witness :
    (∀ k, k < (2 : Nat) → (limiterCall ⟨1000, 2⟩ (fun i => (i : ℤ)) k).allowed = true) ∧
    (limiterCall ⟨1000, 2⟩ (fun i => (i : ℤ)) 2).allowed = false ∧
    (∃ r, (limiterCall ⟨1000, 2⟩ (fun i => (i : ℤ)) 2).retryAfter = some r ∧ 0 < r) ∧
    (checkRateLimitCore ⟨1000, 2⟩ 2002
      (limiterStateAfter ⟨1000, 2⟩ (fun i => (i : ℤ)) 3)).1.allowed = true :=
  rate_limiter_sliding_window ⟨1000, 2⟩ (fun i => (i : ℤ)) 2002
    (by decide) (by decide)
    (fun i j hij _ => by dsimp only; exact_mod_cast hij)
    (by decide) (by decide)
